/-
Verification of the issue-discovery / download-resolution / delivery pipeline
of `gihyo_sd_to_kindle.py` (a script that finds the latest purchased
"Software Design" issue on a publisher portal, downloads its EPUB and mails
it to a Kindle address, with single-slot de-duplication).

The browser automation, HTML parsing, SMTP transport and filesystem are
external collaborators; the pure decision logic of the script is embedded
below as executable Lean functions, and the spec's claims are settled as
theorems about them.
-/
import Mathlib

set_option maxHeartbeats 1000000

namespace GihyoSD

/-! ## Python string primitives used by the script

`re`'s `\s`, `\d`, `str.strip`, `str.lower`, `pathlib.Path.suffix` /
`.name`, and the `in` substring test are modelled here.  Digits are
modelled as ASCII digits and lower-casing as ASCII lower-casing, which is
the fragment these inputs exercise. -/

/-- Python's `\s` / `str.strip` whitespace class, restricted to the ASCII
whitespace characters plus NBSP and the ideographic space. -/
def pyIsSpace (c : Char) : Bool :=
  c = ' ' || c = '\t' || c = '\n' || c = '\x0d' ||
  c = '\x0b' || c = '\x0c' || c = ' ' || c = '　'

/-- Value of an ASCII decimal digit (Python's `\d` on the inputs at hand). -/
def digitVal? (c : Char) : Option Nat :=
  if c.isDigit then some (c.toNat - 48) else none

/-- Python's `str.strip()` on a character list: drop leading and trailing
whitespace. -/
def pyStripList (l : List Char) : List Char :=
  ((l.dropWhile pyIsSpace).reverse.dropWhile pyIsSpace).reverse

/-- Python's `str.strip()`. -/
def pyStrip (s : String) : String :=
  ⟨pyStripList s.data⟩

/-- Python's `str.lower()` (ASCII fragment). -/
def pyLower (s : String) : String :=
  ⟨s.data.map Char.toLower⟩

/-- Python's substring operator `needle in hay` on character lists. -/
def containsSub (needle : List Char) : List Char → Bool
  | [] => needle.isEmpty
  | c :: t => needle.isPrefixOf (c :: t) || containsSub needle t

/-- Python's `s.endswith(suffix)`. -/
def pyEndsWith (s suffix : String) : Bool :=
  suffix.data.isSuffixOf s.data

/-! ## `score_by_issue` — the "YYYY年M月" issue-date parser

`score_by_issue` runs `re.search(r"(20\d{2})\s*年\s*(1?\d)\s*月", s)` and
returns `(int(year), int(month))`, or `(0, 0)` when there is no match.
The fixed pattern is embedded directly: `re.search` tries each start
position from the left; `\s*` is greedy (the following literal is never a
whitespace character, so maximal munch is exact), and `1?\d` first tries
`"1" ++ digit` and falls back to a single digit when the rest of the
pattern fails. -/

/-- Skip `\s*` and then require the literal character `ch`; return the
remainder on success. -/
def expectChar (ch : Char) (l : List Char) : Option (List Char) :=
  match l.dropWhile pyIsSpace with
  | c :: t => if c = ch then some t else none
  | [] => none

/-- Does `\s*月` match a prefix of `l`? (Nothing after `月` is required.) -/
def expectGetsu (l : List Char) : Bool :=
  match l.dropWhile pyIsSpace with
  | c :: _ => c = '月'
  | [] => false

/-- First alternative of `(1?\d)\s*月`: `1?` consumes a literal `1` and
`\d` the following digit. -/
def monthAlt1 (l : List Char) : Option Nat :=
  match l with
  | c1 :: c2 :: rest =>
    if c1 = '1' then
      match digitVal? c2 with
      | some d => if expectGetsu rest then some (10 + d) else none
      | none => none
    else none
  | _ => none

/-- Backtracked alternative of `(1?\d)\s*月`: `1?` matches the empty
string and `\d` a single digit. -/
def monthAlt2 (l : List Char) : Option Nat :=
  match l with
  | c :: rest =>
    match digitVal? c with
    | some d => if expectGetsu rest then some d else none
    | none => none
  | [] => none

/-- Match `(1?\d)\s*月` at the head of `l`, with the regex backtracking
order: `"1" ++ digit` first, a single digit otherwise. -/
def monthMatch (l : List Char) : Option Nat :=
  match monthAlt1 l with
  | some m => some m
  | none => monthAlt2 l

/-- Match the whole pattern `(20\d{2})\s*年\s*(1?\d)\s*月` anchored at the
head of `l`. -/
def matchAt (l : List Char) : Option (Nat × Nat) :=
  match l with
  | c1 :: c2 :: c3 :: c4 :: rest =>
    if c1 = '2' && c2 = '0' then
      match digitVal? c3, digitVal? c4 with
      | some a, some b =>
        match expectChar '年' rest with
        | some rest2 =>
          match monthMatch (rest2.dropWhile pyIsSpace) with
          | some m => some (2000 + 10 * a + b, m)
          | none => none
        | none => none
      | _, _ => none
    else none
  | _ => none

/-- `re.search`: try every start position from the left, first hit wins. -/
def searchIssue : List Char → Option (Nat × Nat)
  | [] => none
  | c :: t =>
    match matchAt (c :: t) with
    | some r => some r
    | none => searchIssue t

/-- `score_by_issue` from `find_latest_sd_epub_url`: parse `(year, month)`
out of a title, `(0, 0)` when the pattern does not occur. -/
def score_by_issue (s : String) : Nat × Nat :=
  match searchIssue s.data with
  | some r => r
  | none => (0, 0)

/-- Python tuple comparison `>` on `(year, month)` scores (lexicographic). -/
def scoreGt (a b : Nat × Nat) : Bool :=
  b.1 < a.1 || (a.1 = b.1 && b.2 < a.2)

/-- Python tuple comparison `≥` on `(year, month)` scores (lexicographic). -/
def scoreGe (a b : Nat × Nat) : Bool :=
  b.1 < a.1 || (a.1 = b.1 && b.2 ≤ a.2)

/-! ## Candidate selection in `find_latest_sd_epub_url`

`found_items` is a list of `(detail_url, title)` pairs in discovery order.
The script runs `found_items.sort(key=lambda it: score_by_issue(it[1]),
reverse=True)` — Python's sort is stable, and with `reverse=True` ties
keep their original relative order — and then takes `found_items[0]`.
Stable descending sort is embedded as insertion sort that inserts a later
element strictly after all not-smaller earlier ones. -/

/-- A candidate issue: `(detail_url, display_title)`. -/
abbrev Item := String × String

/-- Sort key used on `found_items`: the issue score of the title. -/
def itemKey (it : Item) : Nat × Nat := score_by_issue it.2

/-- Stable descending insertion of an element into the sorted list of the
elements discovered after it: it goes before every later element whose key
is not greater than its own, so ties keep discovery order. -/
def insertDesc (x : Item) : List Item → List Item
  | [] => [x]
  | y :: ys => if scoreGe (itemKey x) (itemKey y) then x :: y :: ys
               else y :: insertDesc x ys

/-- `found_items.sort(key=score_by_issue∘snd, reverse=True)`: stable
descending sort by issue score. -/
def sortFoundItems : List Item → List Item
  | [] => []
  | x :: xs => insertDesc x (sortFoundItems xs)

/-- The selection `found_items[0]` after the descending sort (`none` when
the list is empty — the script raised earlier in that case). -/
def find_latest_selection (found_items : List Item) : Option Item :=
  (sortFoundItems found_items).head?

/-- The `issue_tag` component returned by `find_latest_sd_epub_url`. -/
def issueTagOf (found_items : List Item) : Option String :=
  (find_latest_selection found_items).map Prod.snd

/-- Spec-side selection, written from the spec's words: the candidate with
the lexicographically greatest `(year, month)` score, ties broken in
favour of the earliest discovered. -/
def selectSpec : List Item → Option Item
  | [] => none
  | x :: xs =>
    match selectSpec xs with
    | none => some x
    | some y => if scoreGt (itemKey y) (itemKey x) then some y else some x

/-! ## `normalize` and the keyword matcher

`normalize` runs `unicodedata.normalize("NFKC", s).lower()` and collapses
whitespace runs with `re.sub(r"\s+", " ", s)`; `find_latest_sd_epub_url`
accepts a title when `"software design" in normalize(title)`.  NFKC is a
Python standard-library collaborator: it is modelled by its action on the
characters these titles exercise — full-width ASCII `！`–`～` to `!`–`~`
and the ideographic space to a plain space, all else unchanged. -/

/-- Modelled from the spec: `unicodedata.normalize("NFKC", ·)` restricted
to full-width→half-width folding of U+FF01–U+FF5E and of the ideographic
space U+3000; other characters are left unchanged. -/
def nfkcChar (c : Char) : Char :=
  if 0xFF01 ≤ c.toNat && c.toNat ≤ 0xFF5E then Char.ofNat (c.toNat - 0xFEE0)
  else if c = '　' then ' '
  else c

/-- `re.sub(r"\s+", " ", ·)`, written with a "previous character was
whitespace" state: the first character of each maximal whitespace run
becomes a single space and the rest of the run is dropped. -/
def collapseWsAux : Bool → List Char → List Char
  | _, [] => []
  | prevSpace, c :: rest =>
    if pyIsSpace c then
      if prevSpace then collapseWsAux true rest
      else ' ' :: collapseWsAux true rest
    else c :: collapseWsAux false rest

/-- `re.sub(r"\s+", " ", ·)`: collapse each maximal whitespace run to one
space. -/
def collapseWs (l : List Char) : List Char :=
  collapseWsAux false l

/-- `normalize` from `find_latest_sd_epub_url`: NFKC, lower-case, collapse
whitespace. -/
def normalize (s : String) : String :=
  ⟨collapseWs ((s.data.map nfkcChar).map Char.toLower)⟩

/-- `KEY = "software design"`. -/
def KEY : String := "software design"

/-- The keyword matcher: `KEY in normalize(title)`. -/
def matchesKeyword (title : String) : Bool :=
  containsSub KEY.data (normalize title).data

/-! ## Dedup gate (`already_sent` / `mark_sent`)

The marker file `work/last_sent.txt` is modelled as `Option String`
(`none` = file absent, `some c` = file with content `c`). -/

/-- `already_sent`: the file exists and its content, trimmed, equals the
tag. -/
def already_sent (file : Option String) (issue_tag : String) : Bool :=
  match file with
  | none => false
  | some c => pyStrip c = issue_tag

/-- `mark_sent`: overwrite the marker file with the tag (untrimmed). -/
def mark_sent (issue_tag : String) : Option String :=
  some issue_tag

/-- The dedup gate as a state-passing read: it returns its verdict and the
marker file, which it never modifies. -/
def already_sentS (file : Option String) (issue_tag : String) :
    Bool × Option String :=
  (already_sent file issue_tag, file)

/-! ## Path helpers (`pathlib.Path.suffix` / `.name`)

`Path.suffix` is the final component's extension: the slice from the last
dot, provided that dot is neither the first nor the last character of the
name; otherwise `""`.  `Path.name` is the part after the last `/`. -/

/-- `pathlib`'s `Path(name).suffix` for a bare file name. -/
def pySuffix (name : String) : String :=
  let l := name.data
  match (l.reverse.findIdx? (· = '.')).map (fun j => l.length - 1 - j) with
  | some i => if 0 < i && i < l.length - 1 then ⟨l.drop i⟩ else ""
  | none => ""

/-- `pathlib`'s `Path(entry).name`: strip everything up to the last `/`. -/
def pyName (entry : String) : String :=
  ⟨(entry.data.reverse.takeWhile (· ≠ '/')).reverse⟩

/-! ## `download_asset` — archive unwrap

After the browser download is captured under `out_path`, the script checks
`out_path.suffix.lower() == ".zip"`; if so it lists the archive, keeps the
entries whose lower-cased names end in `".epub"`, fails when there are
none, extracts the first one, renames it to its base name (stripping any
internal directory prefix), deletes the archive and returns the extracted
path; otherwise it returns `out_path` unchanged.  The pure decision is
embedded over the captured file name and the archive's entry list; the
result carries the returned file name and whether the archive was
deleted. -/

/-- `download_asset`'s post-capture logic: `fileName` is the captured
file's name, `entries` the archive's member list (consulted only in the
zip branch).  Returns `(returned file name, archive deleted?)` or the
fatal "no EPUB in ZIP" error. -/
def download_asset (fileName : String) (entries : List String) :
    Except String (String × Bool) :=
  if pyLower (pySuffix fileName) = ".zip" then
    match entries.filter (fun m => pyEndsWith (pyLower m) ".epub") with
    | [] => .error "ZIP内にEPUBが見つかりませんでした"
    | e :: _ => .ok (pyName e, true)
  else
    .ok (fileName, false)

/-! ## `send_to_kindle` — delivery preconditions

`file_size_mb = size / (1024*1024)` is a float division by a power of two,
which is exact for any real file size (< 2⁵³ bytes), so
`file_size_mb > 25` is exactly `size > 25·2²⁰` on the integers.  The
script then refuses unless `suffix.lower() == ".epub"`. -/

/-- The two delivery preconditions of `send_to_kindle`, in source order:
size ceiling first, then extension.  `.ok` means the SMTP send is
attempted. -/
def send_to_kindle (sizeBytes : Nat) (suffix : String) : Except String Unit :=
  if 25 * 1024 * 1024 < sizeBytes then
    .error "file too large"
  else if ¬ (pyLower suffix = ".epub") then
    .error "only EPUB may be sent"
  else
    .ok ()

/-! ## `main` — the run pipeline

`main` opens Playwright in a `with` block, logs in only when
`storage.json` is absent (two attempts, a short `wait_for_timeout` before
the second; the second failure re-raises), then discovers, gates on
`already_sent`, downloads, sends, and only then calls `mark_sent`.
The with-statement's exit stops the Playwright driver on every path,
normal or exceptional, releasing the browser and context it launched
(modelled from the spec: the automation engine is an external collaborator
whose context manager tears down its processes); the script additionally
calls `ctx.close(); ctx.browser.close()` explicitly on the two
non-raising paths. -/

/-- Outcome of the steps a run can take, in pipeline order. -/
inductive Outcome where
  | loginFailed
  | findFailed
  | alreadySent (tag : String)
  | downloadFailed
  | sendFailed
  | sent (tag : String)
deriving DecidableEq, Repr

/-- Is the outcome the full-success one? -/
def Outcome.isSent : Outcome → Bool
  | .sent _ => true
  | _ => false

/-- Oracle for the externally determined events of one run: whether
`storage.json` exists, how each login attempt would end, what discovery
would return (`none` = it raises), and whether download and send would
succeed. -/
structure Env where
  storageExists : Bool
  login1Ok : Bool
  login2Ok : Bool
  findResult : Option (String × String)
  downloadOk : Bool
  sendOk : Bool

/-- Result of one run of `main`: the outcome, the marker file after the
run, how many interactive login attempts were made, whether the explicit
`ctx.close(); ctx.browser.close()` calls ran, and whether the
`with sync_playwright()` exit stopped the automation engine. -/
structure RunResult where
  outcome : Outcome
  marker : Option String
  loginAttempts : Nat
  ctxClosed : Bool
  engineStopped : Bool

/-- The browsing session is released when it was explicitly closed or the
engine that owns it was stopped. -/
def RunResult.released (r : RunResult) : Bool :=
  r.ctxClosed || r.engineStopped

/-- The pipeline from discovery onward (the body after the login phase):
discovery, dedup gate, download, send, `mark_sent`. -/
def pipelineAfterLogin (env : Env) (marker0 : Option String) :
    Outcome × Option String × Bool :=
  match env.findResult with
  | none => (.findFailed, marker0, false)
  | some (_, tag) =>
    if already_sent marker0 tag then (.alreadySent tag, marker0, true)
    else if ¬ env.downloadOk then (.downloadFailed, marker0, false)
    else if ¬ env.sendOk then (.sendFailed, marker0, false)
    else (.sent tag, mark_sent tag, true)

/-- One run of `main`, given the event oracle and the marker file's
content at the start of the run. -/
def main_run (env : Env) (marker0 : Option String) : RunResult :=
  let inner : Outcome × Option String × Bool × Nat :=
    if ¬ env.storageExists then
      if env.login1Ok then
        let (o, m, c) := pipelineAfterLogin env marker0
        (o, m, c, 1)
      else if env.login2Ok then
        let (o, m, c) := pipelineAfterLogin env marker0
        (o, m, c, 2)
      else
        (.loginFailed, marker0, false, 2)
    else
      let (o, m, c) := pipelineAfterLogin env marker0
      (o, m, c, 0)
  { outcome := inner.1
    marker := inner.2.1
    ctxClosed := inner.2.2.1
    loginAttempts := inner.2.2.2
    engineStopped := true }

/-! ## Helper lemmas -/

theorem digitVal?_le {c : Char} {a : Nat} (h : digitVal? c = some a) :
    a ≤ 9 := by
  unfold digitVal? at h
  split at h
  · rename_i hd
    injection h with h'
    subst h'
    unfold Char.isDigit at hd
    simp only [Bool.and_eq_true, decide_eq_true_eq] at hd
    have h48 : 48 ≤ c.val.toNat := hd.1
    have h57 : c.val.toNat ≤ 57 := hd.2
    unfold Char.toNat
    omega
  · exact absurd h (by simp)

theorem monthAlt1_le {l : List Char} {m : Nat} (h : monthAlt1 l = some m) :
    m ≤ 19 := by
  unfold monthAlt1 at h
  split at h
  · split at h
    · split at h
      · rename_i d hd
        split at h
        · injection h with h'
          have := digitVal?_le hd
          omega
        · simp at h
      · simp at h
    · simp at h
  · simp at h

theorem monthAlt2_le {l : List Char} {m : Nat} (h : monthAlt2 l = some m) :
    m ≤ 19 := by
  unfold monthAlt2 at h
  split at h
  · split at h
    · rename_i d hd
      split at h
      · injection h with h'
        have := digitVal?_le hd
        omega
      · simp at h
    · simp at h
  · simp at h

theorem monthMatch_le {l : List Char} {m : Nat} (h : monthMatch l = some m) :
    m ≤ 19 := by
  unfold monthMatch at h
  split at h
  · rename_i m' halt
    injection h with h'
    subst h'
    exact monthAlt1_le halt
  · exact monthAlt2_le h

theorem matchAt_bounds {l : List Char} {p : Nat × Nat}
    (h : matchAt l = some p) :
    2000 ≤ p.1 ∧ p.1 ≤ 2099 ∧ p.2 ≤ 19 := by
  unfold matchAt at h
  split at h
  · split at h
    · split at h
      · rename_i a b ha hb
        split at h
        · split at h
          · rename_i m hm
            injection h with h'
            subst h'
            have hA := digitVal?_le ha
            have hB := digitVal?_le hb
            have hM := monthMatch_le hm
            refine ⟨by simp; omega, by simp; omega, by simpa using hM⟩
          · exact absurd h (by simp)
        · exact absurd h (by simp)
      · exact absurd h (by simp)
    · exact absurd h (by simp)
  · exact absurd h (by simp)

theorem searchIssue_bounds {l : List Char} {p : Nat × Nat}
    (h : searchIssue l = some p) :
    2000 ≤ p.1 ∧ p.1 ≤ 2099 ∧ p.2 ≤ 19 := by
  induction l with
  | nil => exact absurd h (by simp [searchIssue])
  | cons c t ih =>
    unfold searchIssue at h
    split at h
    · rename_i r hr
      injection h with h'
      subst h'
      exact matchAt_bounds hr
    · exact ih h

theorem score_by_issue_zero_or_bounds (s : String) :
    score_by_issue s = (0, 0) ∨
      (2000 ≤ (score_by_issue s).1 ∧ (score_by_issue s).1 ≤ 2099 ∧
       (score_by_issue s).2 ≤ 19) := by
  unfold score_by_issue
  split
  · rename_i r hr
    exact Or.inr (searchIssue_bounds hr)
  · exact Or.inl rfl

theorem scoreGe_eq_not_scoreGt (a b : Nat × Nat) :
    scoreGe a b = !scoreGt b a := by
  rcases a with ⟨a1, a2⟩
  rcases b with ⟨b1, b2⟩
  have key : ∀ x y : Bool, (x = true ↔ y = true) → x = y := by decide
  apply key
  simp only [scoreGe, scoreGt, Bool.or_eq_true, Bool.and_eq_true,
    decide_eq_true_eq, Bool.not_eq_true', Bool.or_eq_false_iff,
    Bool.and_eq_false_iff, decide_eq_false_iff_not]
  omega

theorem head?_insertDesc (x : Item) (l : List Item) :
    (insertDesc x l).head? =
      some (match l with
            | [] => x
            | y :: _ => if scoreGe (itemKey x) (itemKey y) then x else y) := by
  cases l with
  | nil => rfl
  | cons y ys =>
    unfold insertDesc
    split <;> simp_all

theorem head?_sortFoundItems_eq_selectSpec (l : List Item) :
    (sortFoundItems l).head? = selectSpec l := by
  induction l with
  | nil => rfl
  | cons x xs ih =>
    unfold sortFoundItems selectSpec
    rw [head?_insertDesc]
    cases hs : sortFoundItems xs with
    | nil =>
      rw [hs] at ih
      simp only [List.head?] at ih
      rw [← ih]
    | cons y ys =>
      rw [hs] at ih
      simp only [List.head?] at ih
      rw [← ih]
      simp only
      rw [scoreGe_eq_not_scoreGt]
      cases hgt : scoreGt (itemKey y) (itemKey x) <;> simp

theorem filter_head?_eq_find? {α : Type} (p : α → Bool) (l : List α) :
    (l.filter p).head? = l.find? p := by
  induction l with
  | nil => rfl
  | cons c t ih =>
    simp only [List.filter, List.find?]
    cases p c <;> simp [ih]

theorem containsSub_iff (needle hay : List Char) :
    containsSub needle hay = true ↔ needle <:+: hay := by
  induction hay with
  | nil =>
    simp [containsSub, List.isEmpty_iff, List.infix_nil]
  | cons c t ih =>
    simp only [containsSub, Bool.or_eq_true, ih, List.isPrefixOf_iff_prefix]
    exact List.infix_cons_iff.symm

/-! ## Claim theorems -/

/-- C1: For every list of matched candidate issues, the issue selected by
`find_latest_sd_epub_url` (sort descending by `score_by_issue` of the
title, stable, then take the head) is exactly the candidate whose title
yields the lexicographically greatest `(year, month)`, ties broken by
original discovery order; and a title whose date is unparseable scores
`(0, 0)`, which is strictly below the score of any title with a parseable
date, so it sorts behind every such candidate. -/
theorem latest_selection_is_first_greatest :
    (∀ found_items : List Item,
       find_latest_selection found_items = selectSpec found_items)
    ∧ (∀ s : String, score_by_issue s ≠ (0, 0) →
        scoreGt (score_by_issue s) (0, 0) = true) := by
  constructor
  · intro found_items
    exact head?_sortFoundItems_eq_selectSpec found_items
  · intro s hs
    rcases score_by_issue_zero_or_bounds s with h | h
    · exact absurd h hs
    · unfold scoreGt
      simp only [Bool.or_eq_true, decide_eq_true_eq]
      left
      omega

theorem latest_selection_is_first_greatest_witness :
    find_latest_selection
        [("u1", "Software Design 2024年3月号"),
         ("u2", "Software Design 2024年5月号")] =
      selectSpec
        [("u1", "Software Design 2024年3月号"),
         ("u2", "Software Design 2024年5月号")]
    ∧ scoreGt (score_by_issue "Software Design 2024年5月号") (0, 0) = true :=
  ⟨latest_selection_is_first_greatest.1 _,
   latest_selection_is_first_greatest.2 "Software Design 2024年5月号"
     (by decide)⟩

/-- C2 counterexample: the claim "for every string `t`, after
`mark_sent(t)` a subsequent `already_sent(t)` returns true" fails at the
concrete tag `" a"`: `mark_sent` writes the tag untrimmed while
`already_sent` trims the file content before comparing, so the padded tag
no longer matches its own marker. -/
theorem already_sent_after_mark_sent_padded_tag :
    already_sent (mark_sent " a") " a" = false := by decide

/-- C2 (amended): calling the dedup gate twice with an unchanged marker
file yields the same answer (the gate never modifies the file), and for
every tag `t` that carries no leading or trailing whitespace (as every tag
produced by the scraper does), a subsequent `already_sent t` after
`mark_sent t` returns true. -/
theorem dedup_gate_idempotent_and_marks :
    (∀ (f : Option String) (t : String),
       (already_sentS f t).2 = f ∧
       (already_sentS (already_sentS f t).2 t).1 = (already_sentS f t).1)
    ∧ (∀ t : String, pyStrip t = t →
        already_sent (mark_sent t) t = true) := by
  constructor
  · intro f t
    exact ⟨rfl, rfl⟩
  · intro t ht
    simp [already_sent, mark_sent, ht]

theorem dedup_gate_idempotent_and_marks_witness :
    (already_sentS (some "x") "x").2 = some "x"
    ∧ pyStrip "Software Design 2024年5月号" = "Software Design 2024年5月号"
    ∧ already_sent (mark_sent "Software Design 2024年5月号")
        "Software Design 2024年5月号" = true :=
  ⟨(dedup_gate_idempotent_and_marks.1 (some "x") "x").1,
   by decide,
   dedup_gate_idempotent_and_marks.2 "Software Design 2024年5月号"
     (by decide)⟩

/-- C3 counterexample: the `issue_tag` returned by
`find_latest_sd_epub_url` is not an identifier of the form `(year, month)`
parsed from the title (with a zero-sentinel fallback): two candidate lists
whose titles parse to the same `(year, month)` yield different
`issue_tag`s, so the tag is not determined by the parsed date at all — it
is the raw title string. -/
theorem issue_tag_not_the_parsed_date :
    score_by_issue "Software Design 2024年5月号" =
      score_by_issue "Software Design 2024年5月号 特別付録付き"
    ∧ issueTagOf [("u", "Software Design 2024年5月号")] ≠
        issueTagOf [("u", "Software Design 2024年5月号 特別付録付き")] := by
  constructor
  · decide
  · decide

/-- C3 (amended): the `issue_tag` returned by `find_latest_sd_epub_url`
is the raw display title of the selected issue — the candidate whose
parsed `(year, month)` is greatest (ties by discovery order, unparseable
titles scoring the `(0, 0)` sentinel and ranking last); the parsed date is
used only for the ranking and is not itself returned. -/
theorem issue_tag_is_selected_title :
    ∀ found_items : List Item,
      issueTagOf found_items = (selectSpec found_items).map Prod.snd := by
  intro found_items
  unfold issueTagOf find_latest_selection
  rw [head?_sortFoundItems_eq_selectSpec]

/-- C4: the marker file is overwritten (via `mark_sent`) only on the
outcome where `send_to_kindle` returned successfully; on every other
outcome — login failure, discovery failure, the dedup-gate early return,
download failure, or the send itself raising — the marker's content at the
end of the run equals its content at the start. -/
theorem marker_updated_only_after_send :
    ∀ (env : Env) (marker0 : Option String),
      ((main_run env marker0).outcome.isSent = false →
        (main_run env marker0).marker = marker0)
      ∧ (∀ tag, (main_run env marker0).outcome = .sent tag →
          env.downloadOk = true ∧ env.sendOk = true ∧
          (main_run env marker0).marker = mark_sent tag) := by
  intro env marker0
  obtain ⟨st, l1, l2, fr, dl, sk⟩ := env
  cases fr with
  | none =>
    cases st <;> cases l1 <;> cases l2 <;>
      simp [main_run, pipelineAfterLogin, Outcome.isSent]
  | some pr =>
    obtain ⟨url, tag⟩ := pr
    cases st <;> cases l1 <;> cases l2 <;> cases dl <;> cases sk <;>
      cases hgate : already_sent marker0 tag <;>
      simp [main_run, pipelineAfterLogin, Outcome.isSent, hgate]

theorem marker_updated_only_after_send_witness :
    (main_run ⟨true, false, false, some ("u", "t"), true, false⟩
        (some "old")).marker = some "old"
    ∧ ((⟨true, false, false, some ("u", "t"), true, true⟩ : Env).downloadOk
         = true
       ∧ (⟨true, false, false, some ("u", "t"), true, true⟩ : Env).sendOk
         = true
       ∧ (main_run ⟨true, false, false, some ("u", "t"), true, true⟩
            none).marker = mark_sent "t") :=
  ⟨(marker_updated_only_after_send _ (some "old")).1 (by decide),
   (marker_updated_only_after_send _ none).2 "t" (by decide)⟩

/-- C5: `send_to_kindle` reaches the actual send (`.ok`) exactly when the
file is at most 25 MB and its extension lower-cases to `".epub"`: a
25 MB `.epub` file is accepted, one byte over is rejected, and a non-EPUB
extension is rejected at every size. -/
theorem send_preconditions_iff :
    (∀ (sizeBytes : Nat) (suffix : String),
       (send_to_kindle sizeBytes suffix).isOk = true ↔
         sizeBytes ≤ 25 * 1024 * 1024 ∧ pyLower suffix = ".epub")
    ∧ (send_to_kindle (25 * 1024 * 1024) ".epub").isOk = true
    ∧ (send_to_kindle (25 * 1024 * 1024 + 1) ".epub").isOk = false
    ∧ (∀ sizeBytes : Nat, (send_to_kindle sizeBytes ".pdf").isOk = false) := by
  have main : ∀ (sizeBytes : Nat) (suffix : String),
      (send_to_kindle sizeBytes suffix).isOk = true ↔
        sizeBytes ≤ 25 * 1024 * 1024 ∧ pyLower suffix = ".epub" := by
    intro sizeBytes suffix
    unfold send_to_kindle
    by_cases hbig : 25 * 1024 * 1024 < sizeBytes
    · rw [if_pos hbig]
      constructor
      · intro h; exact absurd h (by simp [Except.isOk, Except.toBool])
      · intro h; exact absurd h.1 (by omega)
    · rw [if_neg hbig]
      by_cases hext : pyLower suffix = ".epub"
      · rw [if_neg (not_not_intro hext)]
        exact ⟨fun _ => ⟨by omega, hext⟩, fun _ => rfl⟩
      · rw [if_pos hext]
        constructor
        · intro h; exact absurd h (by simp [Except.isOk, Except.toBool])
        · intro h; exact absurd h.2 hext
  refine ⟨main, ?_, ?_, ?_⟩
  · exact (main _ _).mpr ⟨by omega, by decide⟩
  · by_cases h : (send_to_kindle (25 * 1024 * 1024 + 1) ".epub").isOk = true
    · exact absurd ((main _ _).mp h).1 (by omega)
    · simpa using h
  · intro sizeBytes
    by_cases h : (send_to_kindle sizeBytes ".pdf").isOk = true
    · exact absurd ((main sizeBytes ".pdf").mp h).2 (by decide)
    · simpa using h

/-- C6: when the captured file's lower-cased extension is `".zip"`,
`download_asset` extracts the first archive entry whose lower-cased name
ends in `".epub"` — failing with a fatal error when no entry does —
renames it to its base name with any internal path prefix stripped,
deletes the archive, and returns the extracted file; for any other
extension it returns the captured file unchanged and deletes nothing. -/
theorem download_asset_zip_unwrap :
    ∀ (fileName : String) (entries : List String),
      (pyLower (pySuffix fileName) = ".zip" →
        (∀ e, entries.find? (fun m => pyEndsWith (pyLower m) ".epub") = some e →
           download_asset fileName entries = .ok (pyName e, true))
        ∧ (entries.find? (fun m => pyEndsWith (pyLower m) ".epub") = none →
           ∃ msg, download_asset fileName entries = .error msg))
      ∧ (pyLower (pySuffix fileName) ≠ ".zip" →
         download_asset fileName entries = .ok (fileName, false)) := by
  intro fileName entries
  constructor
  · intro hzip
    rw [← filter_head?_eq_find?]
    constructor
    · intro e he
      unfold download_asset
      rw [if_pos hzip]
      cases hf : entries.filter (fun m => pyEndsWith (pyLower m) ".epub") with
      | nil => rw [hf] at he; simp at he
      | cons a t =>
        rw [hf] at he
        simp only [List.head?] at he
        injection he with he'
        subst he'
        rfl
    · intro hnone
      unfold download_asset
      rw [if_pos hzip]
      cases hf : entries.filter (fun m => pyEndsWith (pyLower m) ".epub") with
      | nil => exact ⟨_, rfl⟩
      | cons a t => rw [hf] at hnone; simp at hnone
  · intro hnz
    unfold download_asset
    rw [if_neg hnz]

theorem download_asset_zip_unwrap_witness :
    download_asset "sd.zip" ["readme.txt", "inner/SD202405.epub", "x.epub"] =
      .ok ("SD202405.epub", true)
    ∧ (∃ msg, download_asset "sd.zip" ["readme.txt"] = .error msg)
    ∧ download_asset "book.epub" ["whatever.epub"] =
        .ok ("book.epub", false) :=
  ⟨((download_asset_zip_unwrap "sd.zip"
        ["readme.txt", "inner/SD202405.epub", "x.epub"]).1 (by decide)).1
      "inner/SD202405.epub" (by decide),
   ((download_asset_zip_unwrap "sd.zip" ["readme.txt"]).1 (by decide)).2
      (by decide),
   (download_asset_zip_unwrap "book.epub" ["whatever.epub"]).2 (by decide)⟩

/-- C7: the keyword matcher accepts a title exactly when the normalized
form (NFKC width folding, lower-casing, whitespace collapsed to single
spaces) contains `"software design"` as a substring; in particular a
full-width rendering and an upper-case spaced rendering are accepted, and
a title without the keyword is rejected. -/
theorem keyword_match_iff_normalized_substring :
    (∀ title : String,
       matchesKeyword title = true ↔ KEY.data <:+: (normalize title).data)
    ∧ matchesKeyword "Ｓｏｆｔｗａｒｅ　Ｄｅｓｉｇｎ 2024年5月号" = true
    ∧ matchesKeyword "SOFTWARE   DESIGN 2024年5月号" = true
    ∧ matchesKeyword "Web+DB PRESS 2024年5月号" = false := by
  refine ⟨?_, by decide, by decide, by decide⟩
  intro title
  exact containsSub_iff KEY.data (normalize title).data

/-- C8: with no persisted session artifact, `main` tries interactive login
at most twice — zero retries on first success, exactly one retry when the
first attempt raises — and when both attempts raise the run aborts with
the login failure; when the artifact exists, no interactive login attempt
is made at all. -/
theorem login_attempted_at_most_twice :
    ∀ (env : Env) (marker0 : Option String),
      (main_run env marker0).loginAttempts ≤ 2
      ∧ (env.storageExists = true → (main_run env marker0).loginAttempts = 0)
      ∧ (env.storageExists = false → env.login1Ok = true →
          (main_run env marker0).loginAttempts = 1)
      ∧ (env.storageExists = false → env.login1Ok = false →
          env.login2Ok = true →
          (main_run env marker0).loginAttempts = 2 ∧
          (main_run env marker0).outcome ≠ .loginFailed)
      ∧ (env.storageExists = false → env.login1Ok = false →
          env.login2Ok = false →
          (main_run env marker0).outcome = .loginFailed ∧
          (main_run env marker0).loginAttempts = 2) := by
  intro env marker0
  obtain ⟨st, l1, l2, fr, dl, sk⟩ := env
  cases fr with
  | none =>
    cases st <;> cases l1 <;> cases l2 <;>
      simp [main_run, pipelineAfterLogin]
  | some pr =>
    obtain ⟨url, tag⟩ := pr
    cases st <;> cases l1 <;> cases l2 <;> cases dl <;> cases sk <;>
      cases hgate : already_sent marker0 tag <;>
      simp [main_run, pipelineAfterLogin, hgate]

theorem login_attempted_at_most_twice_witness :
    (main_run ⟨true, false, false, none, true, true⟩ none).loginAttempts = 0
    ∧ (main_run ⟨false, true, false, none, true, true⟩ none).loginAttempts = 1
    ∧ ((main_run ⟨false, false, true, none, true, true⟩ none).loginAttempts = 2
       ∧ (main_run ⟨false, false, true, none, true, true⟩ none).outcome ≠
           .loginFailed)
    ∧ ((main_run ⟨false, false, false, none, true, true⟩ none).outcome =
         .loginFailed
       ∧ (main_run ⟨false, false, false, none, true, true⟩ none).loginAttempts
         = 2) :=
  ⟨(login_attempted_at_most_twice ⟨true, false, false, none, true, true⟩
      none).2.1 rfl,
   (login_attempted_at_most_twice ⟨false, true, false, none, true, true⟩
      none).2.2.1 rfl rfl,
   (login_attempted_at_most_twice ⟨false, false, true, none, true, true⟩
      none).2.2.2.1 rfl rfl rfl,
   (login_attempted_at_most_twice ⟨false, false, false, none, true, true⟩
      none).2.2.2.2 rfl rfl rfl⟩

/-- C9: on every exit path of `main` — full success, the dedup gate's
early return, and each failure (login, discovery, download, send) — the
browsing session is released before the run ends: either by the explicit
`ctx.close(); ctx.browser.close()` calls or by the `with sync_playwright()`
exit stopping the automation engine that owns the browser. -/
theorem session_released_on_every_exit :
    ∀ (env : Env) (marker0 : Option String),
      (main_run env marker0).released = true := by
  intro env marker0
  simp [main_run, RunResult.released]

/-- C10: `score_by_issue` constrains its components only by the regex: a
matching title yields `(y, m)` with `2000 ≤ y ≤ 2099` and `m ≤ 19`
(months `0` and `13`–`19` included), every other title — years outside
`20xx` included — yields `(0, 0)`; concretely `"2024年19月"` scores
`(2024, 19)` and outranks `"2024年12月"`, and `"2024年0月"` scores
`(2024, 0)` while `"1999年5月"` scores `(0, 0)`. -/
theorem score_by_issue_range :
    (∀ s : String, score_by_issue s = (0, 0) ∨
       (2000 ≤ (score_by_issue s).1 ∧ (score_by_issue s).1 ≤ 2099 ∧
        (score_by_issue s).2 ≤ 19))
    ∧ score_by_issue "2024年19月" = (2024, 19)
    ∧ score_by_issue "2024年12月" = (2024, 12)
    ∧ scoreGt (score_by_issue "2024年19月") (score_by_issue "2024年12月")
        = true
    ∧ score_by_issue "2024年0月" = (2024, 0)
    ∧ score_by_issue "1999年5月" = (0, 0) :=
  ⟨score_by_issue_zero_or_bounds, by decide, by decide, by decide,
   by decide, by decide⟩

end GihyoSD
